import Mathlib

/-!
# Verification of the liten-http message model

Shallow embedding of the `liten-http` repository (a minimal HTTP/1.1
message model) and proofs about its parsing and serialization functions.

Source files embedded: `src/error.rs`, `src/method.rs`, `src/status.rs`,
`src/header.rs`, `src/request.rs`, `src/response.rs`.

Rust `String`/`&str` values are modelled as Lean `String`; the character
level manipulations of the source (`split`, `split_once`, `chars`,
`remove(0)`, `pop`) are modelled on `List Char` (the `data` field of a
Lean `String`). Fallible Rust functions returning `Result<T, Error>`
are modelled as `Except Error T`.
-/

namespace LitenHttp

/-- Embeds `ErrorType` from src/error.rs: the single parse-error kind. -/
inductive ErrorType where
  | ParseError
deriving DecidableEq, Repr

/-- Embeds `Error` from src/error.rs: an error kind plus a message. -/
structure Error where
  error : ErrorType
  error_msg : String
deriving DecidableEq, Repr

instance {m : Type} {a : Type} [DecidableEq m] [DecidableEq a] :
    DecidableEq (Except m a) := fun x y =>
  match x, y with
  | .ok u, .ok v => decidable_of_iff (u = v) (by simp)
  | .error u, .error v => decidable_of_iff (u = v) (by simp)
  | .ok _, .error _ => .isFalse (by simp)
  | .error _, .ok _ => .isFalse (by simp)

/-- Embeds `Method` from src/method.rs: the closed set of four verbs. -/
inductive Method where
  | Get
  | Post
  | Delete
  | Put
deriving DecidableEq, Repr

/-- Embeds `Method::from_string` from src/method.rs: exact, case-sensitive
match of the four canonical tokens; anything else is a `ParseError` with
message "Unknown method". -/
def Method.from_string (method_string : String) : Except Error Method :=
  if method_string = "GET" then .ok .Get
  else if method_string = "POST" then .ok .Post
  else if method_string = "DELETE" then .ok .Delete
  else if method_string = "PUT" then .ok .Put
  else .error ⟨.ParseError, "Unknown method"⟩

/-- Embeds `impl Display for Method` from src/method.rs. The Rust body is
`write!(f, "{}", self.to_string())`, where `to_string` is the blanket
`ToString` implementation for `Display` types, which itself invokes this
very `fmt`. So rendering a `Method` re-enters itself unconditionally:
there is no base case. The `Nat` argument bounds the number of nested
`fmt`/`to_string` invocations; `none` means that no string was produced
within that bound. Each step consumes one fuel unit and performs the one
recursive call the source makes. -/
def Method.fmtFuel : Nat → Method → Option String
  | 0, _ => none
  | n + 1, m => Method.fmtFuel n m

/-- Embeds `Status` from src/status.rs: the closed set of five statuses. -/
inductive Status where
  | Ok
  | SeeOther
  | BadRequest
  | NotFound
  | InternalServerError
deriving DecidableEq, Repr

/-- Embeds `Status::status_code` from src/status.rs. -/
def Status.status_code : Status → Nat
  | .Ok => 200
  | .SeeOther => 303
  | .BadRequest => 400
  | .NotFound => 404
  | .InternalServerError => 500

/-- Embeds `Status::msg` from src/status.rs. -/
def Status.msg : Status → String
  | .Ok => "OK"
  | .SeeOther => "SEE OTHER"
  | .BadRequest => "BAD REQUEST"
  | .NotFound => "NOT FOUND"
  | .InternalServerError => "INTERNAL SERVER ERROR"

/-- Embeds `impl Display for Status` from src/status.rs:
`write!(f, "{} {}", self.status_code(), self.msg())`. -/
def Status.render (s : Status) : String :=
  Nat.repr s.status_code ++ " " ++ s.msg

/-- Embeds `Header` from src/header.rs: one name/value field-line. -/
structure Header where
  field_name : String
  field_value : String
deriving DecidableEq, Repr

/-- Embeds `Header::new` from src/header.rs: verbatim constructor, no
validation, no trimming. -/
def Header.new (field_name field_value : String) : Header :=
  ⟨field_name, field_value⟩

/-- Rust `char::is_whitespace` (the Unicode `White_Space` property),
used by `Header::from_field_line` via `is_whitespace()`. Lean's
`Char.isWhitespace` covers only space, tab, CR, LF; the remaining
code points of the Unicode property are listed explicitly. -/
def isRustWhitespace (c : Char) : Bool :=
  c.isWhitespace || c.toNat = 0x0B || c.toNat = 0x0C || c.toNat = 0x85 ||
  c.toNat = 0xA0 || c.toNat = 0x1680 ||
  (0x2000 ≤ c.toNat && c.toNat ≤ 0x200A) ||
  c.toNat = 0x2028 || c.toNat = 0x2029 || c.toNat = 0x202F ||
  c.toNat = 0x205F || c.toNat = 0x3000

/-- Rust `str::split_once(sep)` on the character level: split at the
first occurrence of `sep`, returning the parts before and after it,
or `none` when `sep` does not occur. -/
def splitOnce (sep : Char) : List Char → Option (List Char × List Char)
  | [] => none
  | c :: rest =>
    if c = sep then some ([], rest)
    else (splitOnce sep rest).map (fun p => (c :: p.1, p.2))

/-- First half of the OWS-stripping block of `Header::from_field_line`
(src/header.rs lines 56-65), which collects the value into a vector of
chars and, when non-empty, removes the first character if it is
whitespace (`remove(0)`). -/
def stripLeadOnce (l : List Char) : List Char :=
  match l with
  | [] => []
  | c :: rest => if isRustWhitespace c then rest else c :: rest

/-- Second half of the OWS-stripping block: remove the last character
when it is whitespace (`last().is_some_and(..)` then `pop()`). -/
def stripTrailOnce (l : List Char) : List Char :=
  match l.getLast? with
  | some c => if isRustWhitespace c then l.dropLast else l
  | none => l

/-- The whole OWS-stripping block of `Header::from_field_line`
(src/header.rs lines 56-65): when the value is non-empty, remove the
first character if it is whitespace, then remove the (new) last
character if it is whitespace. -/
def stripOwsOnce (l : List Char) : List Char :=
  if l.isEmpty then l
  else stripTrailOnce (stripLeadOnce l)

/-- Embeds `Header::from_field_line` from src/header.rs: split the line
at the first colon (failing with `ParseError` "invalid header format"
when there is none), then strip at most one boundary whitespace
character from each side of the value. -/
def Header.from_field_line (header : String) : Except Error Header :=
  match splitOnce ':' header.data with
  | none => .error ⟨.ParseError, "invalid header format"⟩
  | some (field_name, field_value) =>
    .ok ⟨⟨field_name⟩, ⟨stripOwsOnce field_value⟩⟩

/-- Modelled from the spec: src/ contains no `Display` implementation for
`Header`, yet `impl Display for Response` (src/response.rs line 27) and
`impl Display for Request` (src/request.rs line 29) call `h.to_string()`
on headers, so the rendering code this relies on is missing from src/.
Spec §4.1: a field-line is rendered as
`"<field_name>: <field_value>\r\n"` (colon-space separator, CRLF
terminator) when composed into a larger message. -/
def Header.render (h : Header) : String :=
  h.field_name ++ ": " ++ h.field_value ++ "\r\n"

/-- Prepend a character to the first piece of a split result
(helper for the `split` embeddings below). -/
def consHead (c : Char) : List (List Char) → List (List Char)
  | [] => [[c]]
  | h :: t => (c :: h) :: t

/-- Rust `str::split("\r\n")` on the character level: cut the list at
every (leftmost-first, non-overlapping) occurrence of the two-character
sequence CR LF, keeping empty pieces; the result is never empty. -/
def splitCrlf : List Char → List (List Char)
  | [] => [[]]
  | [c] => [[c]]
  | c :: d :: rest =>
    if c = '\r' ∧ d = '\n' then [] :: splitCrlf rest
    else consHead c (splitCrlf (d :: rest))

/-- Rust `str::split(" ")` (a one-character separator) on the character
level: cut at every occurrence of `sep`, keeping empty pieces. -/
def splitOnChar (sep : Char) : List Char → List (List Char)
  | [] => [[]]
  | c :: rest =>
    if c = sep then [] :: splitOnChar sep rest
    else consHead c (splitOnChar sep rest)

/-- Embeds `Request` from src/request.rs. -/
structure Request where
  method : Method
  request_target : String
  protocol_version : String
  header : List Header
  body : Option String
deriving DecidableEq, Repr

/-- Embeds `Request::parse_request_line` from src/request.rs: split the
start-line on single spaces; parse the first token as the method
(propagating `Method::from_string`'s error via `?`), then take the next
two tokens as request-target and protocol-version, failing with
`ParseError` "invalid request-line format" when either is missing.
Tokens after the third are never requested from the iterator. -/
def Request.parse_request_line (request_line : List Char) :
    Except Error (Method × String × String) :=
  match splitOnChar ' ' request_line with
  | [] => .error ⟨.ParseError, "invalid request-line format"⟩
  | t :: rest =>
    match Method.from_string ⟨t⟩ with
    | .error e => .error e
    | .ok method =>
      match rest with
      | path :: version :: _ => .ok (method, ⟨path⟩, ⟨version⟩)
      | _ => .error ⟨.ParseError, "invalid request-line format"⟩

/-- The header-and-body loop of `Request::parse` (src/request.rs lines
63-77): consume lines as header field-lines until the first empty line
(propagating any header parse error via `?`); after the empty line, the
single next segment — if any — becomes the body. When the lines run out
before an empty line is seen, the body is `none`. -/
def scanHeaders : List (List Char) → Except Error (List Header × Option String)
  | [] => .ok ([], none)
  | l :: rest =>
    if l = [] then .ok ([], rest.head?.map (fun b => (⟨b⟩ : String)))
    else
      match Header.from_field_line ⟨l⟩ with
      | .error e => .error e
      | .ok h =>
        match scanHeaders rest with
        | .error e => .error e
        | .ok (hs, b) => .ok (h :: hs, b)

/-- Embeds `Request::parse` from src/request.rs: split the buffer on
CRLF; the first piece is the start-line (any start-line failure is
re-wrapped as `ParseError` "invalid request format"); then scan headers
and body per `scanHeaders`. -/
def Request.parse (request_string : String) : Except Error Request :=
  match splitCrlf request_string.data with
  | [] => .error ⟨.ParseError, "invalid request format"⟩
  | start_line :: rest =>
    match Request.parse_request_line start_line with
    | .error _ => .error ⟨.ParseError, "invalid request format"⟩
    | .ok (method, path, version) =>
      match scanHeaders rest with
      | .error e => .error e
      | .ok (header, body) =>
        .ok ⟨method, path, version, header, body⟩

/-- Embeds `Request::from_string` from src/request.rs: delegates to
`Request::parse`. -/
def Request.from_string (request_string : String) : Except Error Request :=
  Request.parse request_string

/-- Embeds `Response` from src/response.rs. -/
structure Response where
  protocol_version : String
  status : Status
  header : List Header
  body : Option String
deriving DecidableEq, Repr

/-- Embeds `Response::new` / `Default for Response` from src/response.rs:
protocol `HTTP/1.1`, status `Ok`, no headers, no body. -/
def Response.new : Response :=
  ⟨"HTTP/1.1", .Ok, [], none⟩

/-- Embeds the builder method `Response::status` from src/response.rs
(named `withStatus` here because `status` is already the field accessor):
replace the status, keep everything else. -/
def Response.withStatus (r : Response) (status : Status) : Response :=
  { r with status := status }

/-- Embeds the builder method `Response::header` from src/response.rs
(named `addHeader` here because `header` is already the field accessor):
append one header at the end of the sequence. -/
def Response.addHeader (r : Response) (h : Header) : Response :=
  { r with header := r.header ++ [h] }

/-- Embeds `Response::content` from src/response.rs: build a fresh header
vector holding `Content-Length` (the byte length of the body, via Rust
`str::len`, modelled as `String.utf8ByteSize`) and then `Content-Type`,
replace the header sequence with it, and set the body. -/
def Response.content (r : Response) (content content_type : String) : Response :=
  { r with
    header := [Header.new "Content-Length" (Nat.repr content.utf8ByteSize),
               Header.new "Content-Type" content_type],
    body := some content }

/-- Embeds `Response::html` from src/response.rs. -/
def Response.html (r : Response) (content : String) : Response :=
  r.content content "text/html"

/-- Embeds `Response::json` from src/response.rs. -/
def Response.json (r : Response) (content : String) : Response :=
  r.content content "application/json"

/-- Embeds `impl Display for Response` from src/response.rs: concatenate
the rendered headers, render an absent body as the empty string, and
produce `"<protocol_version> <status>\r\n<headers>\r\n<body>"`.
Header rendering is `Header.render` (see its doc comment: the `Display`
implementation it stands for is missing from src/). -/
def Response.render (r : Response) : String :=
  let headers := r.header.foldl (fun acc h => acc ++ Header.render h) ""
  let body :=
    match r.body with
    | some v => v
    | none => ""
  r.protocol_version ++ " " ++ r.status.render ++ "\r\n" ++ headers ++ "\r\n" ++ body


/-! ## Helper predicates and lemmas -/

/-- `true` iff the list does not start with a (Rust-)whitespace character. -/
def noLeadWs (l : List Char) : Bool :=
  match l with
  | [] => true
  | c :: _ => !(isRustWhitespace c)

/-- `true` iff the list does not end with a (Rust-)whitespace character. -/
def noTrailWs (l : List Char) : Bool :=
  match l.getLast? with
  | none => true
  | some c => !(isRustWhitespace c)

theorem splitOnce_of_not_mem {sep : Char} :
    ∀ {l : List Char}, sep ∉ l → splitOnce sep l = none := by
  intro l h
  induction l with
  | nil => rfl
  | cons c rest ih =>
    have hc : c ≠ sep := fun hc => h (hc ▸ List.mem_cons_self c rest)
    have hrest : sep ∉ rest := fun hm => h (List.mem_cons_of_mem c hm)
    simp [splitOnce, hc, ih hrest]

theorem splitOnce_append {sep : Char} :
    ∀ {n : List Char} (v : List Char), sep ∉ n →
      splitOnce sep (n ++ sep :: v) = some (n, v) := by
  intro n v h
  induction n with
  | nil => simp [splitOnce]
  | cons c rest ih =>
    have hc : c ≠ sep := fun hc => h (hc ▸ List.mem_cons_self c rest)
    have hrest : sep ∉ rest := fun hm => h (List.mem_cons_of_mem c hm)
    simp [splitOnce, hc, ih hrest]

theorem stripLeadOnce_ws {c : Char} (rest : List Char)
    (hc : isRustWhitespace c = true) :
    stripLeadOnce (c :: rest) = rest := by
  simp [stripLeadOnce, hc]

theorem stripLeadOnce_id (l : List Char) (h1 : noLeadWs l = true) :
    stripLeadOnce l = l := by
  cases l with
  | nil => rfl
  | cons c rest =>
    unfold noLeadWs at h1
    simp at h1
    simp [stripLeadOnce, h1]

theorem stripTrailOnce_ws {d : Char} (core : List Char)
    (hd : isRustWhitespace d = true) :
    stripTrailOnce (core ++ [d]) = core := by
  simp [stripTrailOnce, List.getLast?_concat, hd]

theorem stripTrailOnce_id (l : List Char) (h2 : noTrailWs l = true) :
    stripTrailOnce l = l := by
  unfold stripTrailOnce
  cases hl : l.getLast? with
  | none => rfl
  | some e =>
    unfold noTrailWs at h2
    rw [hl] at h2
    simp at h2
    simp [h2]

theorem stripOwsOnce_lead_trail {c d : Char} (core : List Char)
    (hc : isRustWhitespace c = true) (hd : isRustWhitespace d = true) :
    stripOwsOnce (c :: (core ++ [d])) = core := by
  have h1 : stripLeadOnce (c :: (core ++ [d])) = core ++ [d] := stripLeadOnce_ws _ hc
  simp only [stripOwsOnce, List.isEmpty_cons, Bool.false_eq_true,
    if_false, h1, stripTrailOnce_ws core hd]

theorem stripOwsOnce_lead {c : Char} (core : List Char)
    (hc : isRustWhitespace c = true) (h2 : noTrailWs core = true) :
    stripOwsOnce (c :: core) = core := by
  simp only [stripOwsOnce, List.isEmpty_cons, Bool.false_eq_true, if_false,
    stripLeadOnce_ws core hc, stripTrailOnce_id core h2]

theorem stripOwsOnce_trail {d : Char} (core : List Char)
    (hd : isRustWhitespace d = true) (h1 : noLeadWs core = true) :
    stripOwsOnce (core ++ [d]) = core := by
  cases core with
  | nil => simp [stripOwsOnce, stripLeadOnce, stripTrailOnce, hd]
  | cons c rest =>
    unfold noLeadWs at h1
    simp at h1
    have hlead : stripLeadOnce ((c :: rest) ++ [d]) = (c :: rest) ++ [d] := by
      simp [stripLeadOnce, h1]
    simp only [stripOwsOnce, List.cons_append, List.isEmpty_cons, Bool.false_eq_true,
      if_false]
    rw [show c :: (rest ++ [d]) = (c :: rest) ++ [d] from rfl, hlead,
      stripTrailOnce_ws (c :: rest) hd]

theorem stripOwsOnce_id (core : List Char)
    (h1 : noLeadWs core = true) (h2 : noTrailWs core = true) :
    stripOwsOnce core = core := by
  cases core with
  | nil => rfl
  | cons c rest =>
    simp only [stripOwsOnce, List.isEmpty_cons, Bool.false_eq_true, if_false,
      stripLeadOnce_id _ h1, stripTrailOnce_id _ h2]

theorem from_field_line_data {s : String} {n v : List Char}
    (hn : ':' ∉ n) (hs : s.data = n ++ ':' :: v) :
    Header.from_field_line s = .ok ⟨⟨n⟩, ⟨stripOwsOnce v⟩⟩ := by
  unfold Header.from_field_line
  rw [hs, splitOnce_append v hn]

theorem splitCrlf_no_cr : ∀ (l : List Char), '\r' ∉ l → splitCrlf l = [l] := by
  intro l h
  induction l with
  | nil => rfl
  | cons c rest ih =>
    have hc : c ≠ '\r' := fun hc => h (hc ▸ List.mem_cons_self c rest)
    have hrest : '\r' ∉ rest := fun hm => h (List.mem_cons_of_mem c hm)
    cases rest with
    | nil => rfl
    | cons d rest2 =>
      have hne : ¬(c = '\r' ∧ d = '\n') := fun hcd => hc hcd.1
      have step : splitCrlf (c :: d :: rest2) = consHead c (splitCrlf (d :: rest2)) := by
        simp only [splitCrlf]
        rw [if_neg hne]
      rw [step, ih hrest]
      rfl


/-! ## Claim theorems -/

/-- C1: claim that `Request::from_string` captures as the body everything
after the first blank line rejoined on CRLF. The code instead takes only
the next single CRLF segment: on a buffer whose body holds an embedded
CRLF, the parsed body is the first segment alone — the remainder is
dropped, contradicting the claim. -/
theorem request_body_first_segment_only :
    Request.from_string "POST / HTTP/1.1\r\n\r\nab\r\ncd" =
      .ok ⟨.Post, "/", "HTTP/1.1", [], some "ab"⟩
    ∧ Request.from_string "POST / HTTP/1.1\r\n\r\nab\r\ncd" ≠
      .ok ⟨.Post, "/", "HTTP/1.1", [], some "ab\r\ncd"⟩ := by
  constructor
  · rfl
  · decide

/-- C2: claim that rendering a `Method` terminates and produces the
canonical uppercase token. The `Display` implementation formats
`self.to_string()`, which re-invokes the same `fmt`: no amount of fuel
ever produces a result, so the rendering diverges for every `Method`
value instead of terminating with its token. -/
theorem method_display_diverges :
    ∀ (fuel : Nat) (m : Method), Method.fmtFuel fuel m = none := by
  intro fuel m
  induction fuel with
  | zero => rfl
  | succ n ih => exact ih

/-- C6: `Response::content` (and `html`/`json`) replaces the header
sequence with exactly `Content-Length` (byte length of the body) then
`Content-Type`, in that order, sets the body, discards headers added by
prior `header` calls, and leaves status and protocol_version unchanged. -/
theorem response_content_replaces_headers
    (r : Response) (body content_type : String) (h : Header) :
    (r.content body content_type).header =
      [⟨"Content-Length", Nat.repr body.utf8ByteSize⟩,
       ⟨"Content-Type", content_type⟩]
    ∧ (r.content body content_type).body = some body
    ∧ (r.content body content_type).status = r.status
    ∧ (r.content body content_type).protocol_version = r.protocol_version
    ∧ (r.addHeader h).content body content_type = r.content body content_type
    ∧ r.html body = r.content body "text/html"
    ∧ r.json body = r.content body "application/json" :=
  ⟨rfl, rfl, rfl, rfl, rfl, rfl, rfl⟩

/-- C9: `Method::from_string` is an exact case-sensitive match of the four
canonical tokens, and every other token fails with a `ParseError` whose
message is "Unknown method". -/
theorem method_from_string_exact (s : String) :
    Method.from_string "GET" = .ok .Get
    ∧ Method.from_string "POST" = .ok .Post
    ∧ Method.from_string "DELETE" = .ok .Delete
    ∧ Method.from_string "PUT" = .ok .Put
    ∧ (s ≠ "GET" → s ≠ "POST" → s ≠ "DELETE" → s ≠ "PUT" →
        Method.from_string s = .error ⟨.ParseError, "Unknown method"⟩) := by
  refine ⟨by decide, by decide, by decide, by decide, ?_⟩
  intro h1 h2 h3 h4
  simp [Method.from_string, h1, h2, h3, h4]

/-- Witness for C9: the lowercase token "get" is rejected. -/
theorem method_from_string_exact_witness :
    Method.from_string "get" = .error ⟨.ParseError, "Unknown method"⟩ :=
  (method_from_string_exact "get").2.2.2.2 (by decide) (by decide) (by decide)
    (by decide)

/-- C10: response serialization is not injective in the body: with the
other fields fixed, body `none` and body `some ""` render to
character-for-character identical output. -/
theorem response_render_body_not_injective
    (pv : String) (st : Status) (hs : List Header) :
    Response.render ⟨pv, st, hs, none⟩ = Response.render ⟨pv, st, hs, some ""⟩ :=
  rfl

/-- C3 counterexample: the claimed wire string carries
`Content-Length: 19`, but the body `\x7b"hello": "world"\x7d` is 18
bytes long and the code emits its exact byte count, so the serialization
differs from the claimed string. -/
theorem response_json_example_ne_claimed :
    Response.render ((Response.new.withStatus .Ok).json "\x7b\"hello\": \"world\"\x7d") ≠
      "HTTP/1.1 200 OK\r\nContent-Length: 19\r\nContent-Type: application/json\r\n\r\n\x7b\"hello\": \"world\"\x7d" := by
  decide

/-- C3 (amended): `Response::new().status(Ok).json("\x7b\"hello\": \"world\"\x7d")`
serializes with `Content-Length: 18`, the exact byte count of the body
text. -/
theorem response_json_example_render :
    Response.render ((Response.new.withStatus .Ok).json "\x7b\"hello\": \"world\"\x7d") =
      "HTTP/1.1 200 OK\r\nContent-Length: 18\r\nContent-Type: application/json\r\n\r\n\x7b\"hello\": \"world\"\x7d"
    ∧ ("\x7b\"hello\": \"world\"\x7d" : String).utf8ByteSize = 18 := by
  constructor
  · rfl
  · rfl


/-- C7: every `Response` serializes as
`"<protocol_version> <status>\r\n<headers...>\r\n<body>"`, each header
rendered as `"<name>: <value>\r\n"` in insertion order, the status as
`"<code> <REASON PHRASE>"`, an absent body as the empty trailing
segment; in particular a `Response` with no headers and no body
serializes to exactly `"HTTP/1.1 200 OK\r\n\r\n"`. -/
theorem response_serialization_contract (r : Response) :
    Response.render r =
      r.protocol_version ++ " "
        ++ (Nat.repr r.status.status_code ++ " " ++ r.status.msg)
        ++ "\r\n" ++ String.join (r.header.map Header.render)
        ++ "\r\n" ++ (r.body.getD "")
    ∧ Response.render Response.new = "HTTP/1.1 200 OK\r\n\r\n"
    ∧ Response.render (Response.new.withStatus .Ok) = "HTTP/1.1 200 OK\r\n\r\n" := by
  refine ⟨?_, rfl, rfl⟩
  obtain ⟨pv, st, hs, b⟩ := r
  unfold Response.render Status.render
  simp only [String.join, List.foldl_map]
  cases b <;> rfl

/-- C8: for every header field-line `"name: value"` with a single leading
and/or trailing space around the value, `Header::from_field_line`
succeeds with that name and the value with the boundary spaces stripped
(splitting at the first colon, stripping at most one whitespace
character per side, accepting an empty value after the colon); every
line with no colon fails with a `ParseError`. -/
theorem header_field_line_spec (name value line : String)
    (hname : ':' ∉ name.data) :
    Header.from_field_line (name ++ ": " ++ value ++ " ") = .ok ⟨name, value⟩
    ∧ (noTrailWs value.data = true →
        Header.from_field_line (name ++ ": " ++ value) = .ok ⟨name, value⟩)
    ∧ (noLeadWs value.data = true →
        Header.from_field_line (name ++ ":" ++ value ++ " ") = .ok ⟨name, value⟩)
    ∧ Header.from_field_line (name ++ ":") = .ok ⟨name, ""⟩
    ∧ (':' ∉ line.data →
        Header.from_field_line line = .error ⟨.ParseError, "invalid header format"⟩) := by
  have d1 : (": " : String).data = [':', ' '] := rfl
  have d2 : (" " : String).data = [' '] := rfl
  have d3 : (":" : String).data = [':'] := rfl
  refine ⟨?_, ?_, ?_, ?_, ?_⟩
  · have hs : (name ++ ": " ++ value ++ " ").data
        = name.data ++ ':' :: (' ' :: (value.data ++ [' '])) := by
      simp [String.data_append, d1, d2]
    rw [from_field_line_data hname hs,
      stripOwsOnce_lead_trail value.data (by decide) (by decide)]
  · intro h2
    have hs : (name ++ ": " ++ value).data
        = name.data ++ ':' :: (' ' :: value.data) := by
      simp [String.data_append, d1]
    rw [from_field_line_data hname hs,
      stripOwsOnce_lead value.data (by decide) h2]
  · intro h1
    have hs : (name ++ ":" ++ value ++ " ").data
        = name.data ++ ':' :: (value.data ++ [' ']) := by
      simp [String.data_append, d3, d2]
    rw [from_field_line_data hname hs,
      stripOwsOnce_trail value.data (by decide) h1]
  · have hs : (name ++ ":").data = name.data ++ ':' :: [] := by
      simp [String.data_append, d3]
    rw [from_field_line_data hname hs]
    rfl
  · intro hline
    unfold Header.from_field_line
    rw [splitOnce_of_not_mem hline]

/-- Witness for C8: a concrete field-line with one leading and one
trailing space around the value. -/
theorem header_field_line_spec_witness :
    Header.from_field_line ("Host" ++ ": " ++ "127.0.0.1:3000" ++ " ") =
      .ok ⟨"Host", "127.0.0.1:3000"⟩ :=
  (header_field_line_spec "Host" "127.0.0.1:3000" "x" (by decide)).1

/-- C4 counterexample: the line `"A:  b"` (two spaces after the colon) is
accepted, but only one space is stripped: the resulting field_value
`" b"` still begins with a whitespace character, refuting the claimed
invariant for arbitrary amounts of boundary whitespace. -/
theorem header_ows_strip_counterexample :
    Header.from_field_line "A:  b" = .ok ⟨"A", " b"⟩
    ∧ noLeadWs (" b" : String).data = false := by
  constructor
  · rfl
  · rfl

/-- C4 (amended): `Header::from_field_line` strips at most one leading
and at most one trailing whitespace character from the value, so the
no-boundary-whitespace invariant on field_value holds exactly when the
value side of the accepted line carries at most one whitespace character
on each boundary. -/
theorem header_ows_strip_amended (name core : String) (c d : Char)
    (hc : isRustWhitespace c = true) (hd : isRustWhitespace d = true)
    (hname : ':' ∉ name.data)
    (h1 : noLeadWs core.data = true) (h2 : noTrailWs core.data = true) :
    Header.from_field_line (name ++ ":" ++ core) = .ok ⟨name, core⟩
    ∧ Header.from_field_line (name ++ ":" ++ (⟨[c]⟩ : String) ++ core) = .ok ⟨name, core⟩
    ∧ Header.from_field_line (name ++ ":" ++ core ++ (⟨[d]⟩ : String)) = .ok ⟨name, core⟩
    ∧ Header.from_field_line (name ++ ":" ++ (⟨[c]⟩ : String) ++ core ++ (⟨[d]⟩ : String)) =
        .ok ⟨name, core⟩
    ∧ noLeadWs core.data = true ∧ noTrailWs core.data = true := by
  have d3 : (":" : String).data = [':'] := rfl
  refine ⟨?_, ?_, ?_, ?_, h1, h2⟩
  · have hs : (name ++ ":" ++ core).data = name.data ++ ':' :: core.data := by
      simp [String.data_append, d3]
    rw [from_field_line_data hname hs, stripOwsOnce_id core.data h1 h2]
  · have hs : (name ++ ":" ++ (⟨[c]⟩ : String) ++ core).data
        = name.data ++ ':' :: (c :: core.data) := by
      simp [String.data_append, d3]
    rw [from_field_line_data hname hs, stripOwsOnce_lead core.data hc h2]
  · have hs : (name ++ ":" ++ core ++ (⟨[d]⟩ : String)).data
        = name.data ++ ':' :: (core.data ++ [d]) := by
      simp [String.data_append, d3]
    rw [from_field_line_data hname hs, stripOwsOnce_trail core.data hd h1]
  · have hs : (name ++ ":" ++ (⟨[c]⟩ : String) ++ core ++ (⟨[d]⟩ : String)).data
        = name.data ++ ':' :: (c :: (core.data ++ [d])) := by
      simp [String.data_append, d3]
    rw [from_field_line_data hname hs,
      stripOwsOnce_lead_trail core.data hc hd]

/-- Witness for C4 (amended): a space before and a tab after the value
`"x"` are both stripped and the result carries no boundary whitespace. -/
theorem header_ows_strip_amended_witness :
    Header.from_field_line ("Host" ++ ":" ++ (⟨[' ']⟩ : String) ++ "x" ++ (⟨['\t']⟩ : String)) =
      .ok ⟨"Host", "x"⟩ :=
  (header_ows_strip_amended "Host" "x" ' ' '\t' (by decide) (by decide) (by decide)
    (by decide) (by decide)).2.2.2.1


/-- On a buffer with no CR character, the whole buffer is the start-line,
there are no header lines, and the body is `none`; so `from_string` is
decided by `parse_request_line` alone. -/
theorem from_string_single_line (line : String) (hcr : '\r' ∉ line.data) :
    Request.from_string line =
      match Request.parse_request_line line.data with
      | .ok (m, p, v) => .ok ⟨m, p, v, [], none⟩
      | .error _ => .error ⟨.ParseError, "invalid request format"⟩ := by
  unfold Request.from_string Request.parse
  rw [splitCrlf_no_cr line.data hcr]
  cases hpr : Request.parse_request_line line.data with
  | error e => simp [hpr]
  | ok t =>
    obtain ⟨m, p, v⟩ := t
    simp [hpr, scanHeaders]

/-- C5 counterexample: a start-line with four space-separated tokens is
accepted by `Request::from_string` (the claim says exactly three are
required, so it should be rejected); the extra token is silently
ignored. -/
theorem request_line_extra_tokens_accepted :
    Request.from_string "GET / HTTP/1.1 extra" =
      .ok ⟨.Get, "/", "HTTP/1.1", [], none⟩ := by
  rfl

/-- C5 (amended): the start-line is split on single spaces; fewer than
three tokens, or a first token that fails `Method::parse`, yields a
`ParseError` "invalid request format" from `Request::from_string`;
but with three or more tokens and a valid method the request is
accepted, using the first three tokens and ignoring the extras. -/
theorem request_line_token_handling (line : String) (hcr : '\r' ∉ line.data) :
    ((splitOnChar ' ' line.data).length < 3 →
      Request.from_string line = .error ⟨.ParseError, "invalid request format"⟩)
    ∧ (∀ t rest, splitOnChar ' ' line.data = t :: rest →
        (Method.from_string ⟨t⟩ = .error ⟨.ParseError, "Unknown method"⟩ →
          Request.from_string line = .error ⟨.ParseError, "invalid request format"⟩)
        ∧ (∀ m p v rest2, rest = p :: v :: rest2 →
            Method.from_string ⟨t⟩ = .ok m →
            Request.from_string line = .ok ⟨m, ⟨p⟩, ⟨v⟩, [], none⟩)) := by
  rw [from_string_single_line line hcr]
  constructor
  · intro hlen
    rcases hts : splitOnChar ' ' line.data with _ | ⟨t, _ | ⟨p, _ | ⟨v, r2⟩⟩⟩
    · simp [Request.parse_request_line, hts]
    · cases hm : Method.from_string ⟨t⟩ with
      | error e => simp [Request.parse_request_line, hts, hm]
      | ok m => simp [Request.parse_request_line, hts, hm]
    · cases hm : Method.from_string ⟨t⟩ with
      | error e => simp [Request.parse_request_line, hts, hm]
      | ok m => simp [Request.parse_request_line, hts, hm]
    · rw [hts] at hlen
      simp at hlen
      omega
  · intro t rest hts
    constructor
    · intro hm
      simp [Request.parse_request_line, hts, hm]
    · intro m p v rest2 hrest hm
      subst hrest
      simp [Request.parse_request_line, hts, hm]

/-- Witness for C5 (amended): a four-token start-line is accepted with
the extra token ignored. -/
theorem request_line_token_handling_witness :
    Request.from_string "GET / HTTP/1.1 x" =
      .ok ⟨.Get, "/", "HTTP/1.1", [], none⟩ :=
  (((request_line_token_handling "GET / HTTP/1.1 x" (by decide)).2
      ("GET" : String).data [("/" : String).data, ("HTTP/1.1" : String).data, ("x" : String).data]
      (by decide)).2
    .Get ("/" : String).data ("HTTP/1.1" : String).data [("x" : String).data]
    rfl (by decide))

end LitenHttp
